import Mathlib

/-!
Verification of the kleber-hub photo gallery server.

This file gives a shallow embedding of the core of the application: the
identity resolver and access gates, the login device binding, the upload
intake, the moderation pipeline (approve and reject of pending photos with
the global progress counter), the weekly quest activity refresh, and the
client-side reward progress bar computation.

The embedding follows the most evolved iteration of the server present in
the repository (the first file of src/unnamed/part_000, which the spec
describes), together with the client script src/public/js/toilet-app.js.
External collaborators (the blob store, the EXIF extractor, the password
verifier) are passed in as explicit inputs, exactly as the spec treats
them.  Database rows are records, tables are lists of rows, and the SQL
statements of the source are translated query by query.
-/

/-! ## JavaScript and SQL primitives used by the source -/

/-- Leading-whitespace stripping, as JavaScript parseInt performs before
reading digits. -/
def stripLeadingWs : List Char → List Char
  | [] => []
  | c :: cs =>
    if c = ' ' ∨ c = '\t' ∨ c = '\n' ∨ c = '\r' then stripLeadingWs cs else c :: cs

/-- Value of a list of decimal digit characters. -/
def digitsVal (ds : List Char) : Nat :=
  ds.foldl (fun acc c => acc * 10 + (c.toNat - '0'.toNat)) 0

/-- JavaScript parseInt(s, 10): skip leading whitespace, read an optional
sign, then the maximal leading run of decimal digits; the result is NaN
(modelled as none) exactly when that run is empty.  Trailing garbage after
the digit run is ignored, as in JavaScript. -/
def jsParseInt (s : String) : Option Int :=
  let cs := stripLeadingWs s.data
  let signAndRest : Int × List Char :=
    match cs with
    | '-' :: cs' => (-1, cs')
    | '+' :: cs' => (1, cs')
    | _ => (1, cs)
  let ds := signAndRest.2.takeWhile Char.isDigit
  if ds.isEmpty then none else some (signAndRest.1 * Int.ofNat (digitsVal ds))

/-- PostgreSQL text-to-integer cast, used when a string parameter is bound
to an INTEGER column: optional surrounding whitespace, an optional sign and
a nonempty digit run with nothing else; anything different (in particular
the empty string) raises an invalid-input error, modelled as none. -/
def pgTextToInt (s : String) : Option Int :=
  let cs := stripLeadingWs s.data
  let signAndRest : Int × List Char :=
    match cs with
    | '-' :: cs' => (-1, cs')
    | '+' :: cs' => (1, cs')
    | _ => (1, cs)
  let ds := signAndRest.2.takeWhile Char.isDigit
  if ds.isEmpty then none
  else if (stripLeadingWs (signAndRest.2.drop ds.length)).isEmpty then
    some (signAndRest.1 * Int.ofNat (digitsVal ds))
  else none

/-- A JavaScript value bound to an SQL parameter in the source. -/
inductive JsVal where
  | undef
  | null
  | num (n : Int)
  | str (s : String)
deriving DecidableEq, Repr

/-- Binding a JavaScript value to an INTEGER column parameter (node-pg and
PostgreSQL): undefined and null become SQL NULL, a number is passed through,
and a string goes through the PostgreSQL integer cast, which fails on
anything that is not an integer literal.  none models the statement
erroring out. -/
def pgIntParam : JsVal → Option (Option Int)
  | .undef => some none
  | .null => some none
  | .num n => some (some n)
  | .str s =>
    match pgTextToInt s with
    | some n => some (some n)
    | none => none

/-- SQL three-valued AND (Kleene). -/
def sqlAnd : Option Bool → Option Bool → Option Bool
  | some false, _ => some false
  | _, some false => some false
  | some true, some true => some true
  | _, _ => none

/-- SQL comparison a <= b on nullable integers: NULL operands give NULL. -/
def sqlLe : Option Int → Option Int → Option Bool
  | some x, some y => some (decide (x ≤ y))
  | _, _ => none

/-- SQL x BETWEEN a AND b, that is a <= x AND x <= b. -/
def sqlBetween (x a b : Option Int) : Option Bool :=
  sqlAnd (sqlLe a x) (sqlLe x b)

/-- SQL COALESCE(e, false). -/
def coalesceFalse : Option Bool → Bool
  | some b => b
  | none => false

/-- Clamping to the interval from 0 to 100, as the client script does with
Math.max(0, Math.min(100, percent)). -/
def clampQ (x : ℚ) : ℚ := max 0 (min 100 x)

/-! ## Data model (the tables created by initDb) -/

/-- A row of the users table. -/
structure User where
  id : Int
  username : String
  password_hash : String
  devices : List String
deriving DecidableEq, Repr

/-- A row of the photos table (the public gallery). -/
structure Photo where
  filename : String
  url : String
  user_id : Option Int
  taken_at : Option Int
deriving DecidableEq, Repr

/-- A row of the pending_photos table. -/
structure PendingPhoto where
  id : Int
  filename : String
  url : String
  user_id : Option Int
  device_token : Option String
  quest_id : Option Int
  taken_at : Option Int
deriving DecidableEq, Repr

/-- A row of the quests table.  The type column is declared TEXT; the
latest iteration inserts the integer code (1 is daily, 2 is special, 3 is
weekly) through a parameter, so the stored value is its decimal text. -/
structure Quest where
  id : Int
  title : String
  points : Int
  type : String
  start_at : Option Int
  end_at : Option Int
  active : Bool
deriving DecidableEq, Repr

/-- A row of the rewards table, as consumed by the client script. -/
structure Reward where
  points_required : Int
  svg : Option String
deriving DecidableEq, Repr

/-- The database state the claims quantify over: the tables touched by the
moderation and upload pipeline, plus the single global progress total
(the points column of the row with id 1 of global_progress). -/
structure DbState where
  users : List User
  photos : List Photo
  pending : List PendingPhoto
  quests : List Quest
  progressPoints : Int
deriving DecidableEq, Repr

/-! ## Identity resolver and access gates -/

/-- SELECT * FROM users WHERE the token is an element of devices LIMIT 1,
returning the first row or null. -/
def getUserByDevice (users : List User) (token : String) : Option User :=
  users.find? (fun u => decide (token ∈ u.devices))

/-- Outcome of the requireAdmin middleware. -/
inductive GateResult where
  | redirectHome
  | forbidden
  | pass (user : User)
deriving DecidableEq, Repr

/-- The requireAdmin middleware: resolve the device token; redirect to the
landing page when it resolves to no account; answer 403 when the account is
not the hardcoded admin username; otherwise let the request through. -/
def requireAdmin (users : List User) (token : String) : GateResult :=
  match getUserByDevice users token with
  | none => .redirectHome
  | some u => if u.username ≠ "Nicolas" then .forbidden else .pass u

/-! ## Login and device binding -/

/-- The effect of the device binding UPDATE on one users row:
SET devices = array_append(devices, token)
WHERE id = uid AND NOT (token = ANY(devices)). -/
def bindOne (token : String) (uid : Int) (u : User) : User :=
  if u.id = uid ∧ token ∉ u.devices then
    { u with devices := u.devices ++ [token] }
  else u

/-- The device binding UPDATE of POST /login, applied row by row. -/
def bindDevice (token : String) (uid : Int) (users : List User) : List User :=
  users.map (bindOne token uid)

/-- Outcome of POST /login. -/
inductive LoginResult where
  | userNotFound
  | wrongPassword
  | redirectHome
deriving DecidableEq, Repr

/-- POST /login: look the account up by username, verify the password with
the external verifier, and on success bind the device token to the account
(append-if-absent).  Returns the response together with the users table
after the operation. -/
def login (verify : String → String → Bool)
    (users : List User) (username password token : String) :
    LoginResult × List User :=
  match users.find? (fun u => decide (u.username = username)) with
  | none => (.userNotFound, users)
  | some u =>
    if verify password u.password_hash then
      (.redirectHome, bindDevice token u.id users)
    else (.wrongPassword, users)

/-! ## Weekly quest activity refresh -/

/-- The SQL type of a column, as far as operator resolution needs it. -/
inductive SqlColTy where
  | sqlInteger
  | sqlText
deriving DecidableEq, Repr

/-- The declared type of the quests.type column in initDb: TEXT. -/
def questsTypeColTy : SqlColTy := .sqlText

/-- Whether PostgreSQL can resolve an equality between a column of the
given type and an unquoted integer literal: an integer column compares
directly, while a text column fails at plan time, since PostgreSQL (8.3
and later) has no text = integer operator and no implicit cast between the
two.  The failure is raised during operator resolution, before any row is
visited. -/
def pgIntLiteralComparable : SqlColTy → Bool
  | .sqlInteger => true
  | .sqlText => false

/-- Modelled from the spec: the row-wise update the refresh statement is
written to perform, SET active = COALESCE(CURRENT_DATE BETWEEN start_at
AND end_at, false) on the weekly rows (type code 3, stored as the text
value 3), other rows untouched.  Dates are modelled as integers (days).
The statement as written never reaches this step; see
refreshWeeklyQuestsActive. -/
def refreshQuestActiveIntended (today : Int) (q : Quest) : Quest :=
  if q.type = "3" then
    { q with active := coalesceFalse (sqlBetween (some today) q.start_at q.end_at) }
  else q

/-- refreshWeeklyQuestsActive, run before quest-listing reads:
UPDATE quests SET active = COALESCE(CURRENT_DATE BETWEEN start_at AND
end_at, false) WHERE type = 3.
The WHERE clause compares the TEXT column quests.type with the integer
literal 3, so operator resolution fails and the statement raises on every
call, whatever the table holds: no active flag is ever written, the
calling routes answer 500, and the startup call aborts the boot.  Were the
comparison well typed, the statement would perform the intended row-wise
update. -/
def refreshWeeklyQuestsActive (today : Int) (quests : List Quest) :
    Except String (List Quest) :=
  if pgIntLiteralComparable questsTypeColTy then
    .ok (quests.map (refreshQuestActiveIntended today))
  else
    .error ("operator does not exist: text = integer")

/-! ## Moderation pipeline -/

/-- Outcome of POST /admin/pending/:id/approve. -/
inductive ApproveResult where
  | notFound
  | redirectAdmin
deriving DecidableEq, Repr

/-- Step 2 of the approve handler: when the pending row's quest_id is
truthy (non-null and nonzero) look the quest up and read its points (the JS
reads questRows[0].points with a fallback of 0 for SQL NULL, and 0 when the
quest is missing); 0 when quest_id is falsy. -/
def approveQuestPoints (s : DbState) (p : PendingPhoto) : Int :=
  match p.quest_id with
  | none => 0
  | some qid =>
    if qid ≠ 0 then
      match s.quests.find? (fun q => decide (q.id = qid)) with
      | some q => q.points
      | none => 0
    else 0

/-- POST /admin/pending/:id/approve, the body of the transaction: lock and
fetch the pending row (404 and rollback when absent); resolve the quest
points; insert the carried over gallery row; add the points to the global
progress row only when they are strictly positive; delete the pending row;
commit.  The transaction is atomic, so the whole step is one state
transition. -/
def approve (s : DbState) (id : Int) : ApproveResult × DbState :=
  match s.pending.find? (fun p => decide (p.id = id)) with
  | none => (.notFound, s)
  | some p =>
    let questPoints : Int := approveQuestPoints s p
    (.redirectAdmin,
      { s with
        photos := s.photos ++ [⟨p.filename, p.url, p.user_id, p.taken_at⟩],
        progressPoints :=
          if questPoints > 0 then s.progressPoints + questPoints
          else s.progressPoints,
        pending := s.pending.filter (fun r => decide (r.id ≠ id)) })

/-- Outcome of POST /admin/pending/:id/reject. -/
inductive RejectResult where
  | notFound
  | redirectAdmin
deriving DecidableEq, Repr

/-- POST /admin/pending/:id/reject: lock and fetch the pending row (404 and
rollback when absent), then delete it and commit.  The blob purge is
commented out in the source, so no blob effect is modelled. -/
def reject (s : DbState) (id : Int) : RejectResult × DbState :=
  match s.pending.find? (fun p => decide (p.id = id)) with
  | none => (.notFound, s)
  | some _ =>
    (.redirectAdmin,
      { s with pending := s.pending.filter (fun r => decide (r.id ≠ id)) })

/-! ## Upload intake -/

/-- The quest-id local of the upload handler after the parsing block:
let questId = req.body.quest_id; if (questId) with questId then replaced by
parseInt(questId, 10) and NaN demoted to null.  An absent field stays
undefined and a falsy (empty) string is left as it is. -/
def uploadQuestIdVal : Option String → JsVal
  | none => .undef
  | some s =>
    if s = "" then .str s
    else
      match jsParseInt s with
      | some n => .num n
      | none => .null

/-- Outcome of POST /upload. -/
inductive UploadResult where
  | redirectHome
  | forbidden
  | serverError
  | redirectToiletApp
deriving DecidableEq, Repr

/-- POST /upload.  External effects enter as inputs: hasFile is whether
multer produced a file, blob is the Cloudinary upload result (filename and
secure url, none when the blob upload fails), takenAt is the EXIF capture
timestamp (none when extraction fails or the tag is absent), and newId is
the serial id the insert allocates.  The insert binds the parsed quest id
to the INTEGER quest_id column through pgIntParam; a cast error aborts the
handler with a server error and no row. -/
def upload (s : DbState) (hasFile : Bool) (token : String)
    (blob : Option (String × String)) (body_quest_id : Option String)
    (takenAt : Option Int) (newId : Int) : UploadResult × DbState :=
  if ¬ hasFile then (.redirectHome, s)
  else
    match getUserByDevice s.users token with
    | none => (.forbidden, s)
    | some user =>
      match blob with
      | none => (.serverError, s)
      | some (filename, url) =>
        match pgIntParam (uploadQuestIdVal body_quest_id) with
        | none => (.serverError, s)
        | some questId =>
          (.redirectToiletApp,
            { s with pending := s.pending ++
                [⟨newId, filename, url, some user.id, some token, questId, takenAt⟩] })

/-! ## Client-side reward progress bar (src/public/js/toilet-app.js) -/

/-- Index of the first reward with totalPoints strictly below its
points_required threshold, as the for loop of the progress-bar handler
finds it. -/
def findNextIdx (totalPoints : Int) : List Reward → Option Nat
  | [] => none
  | r :: rs =>
    if totalPoints < r.points_required then some 0
    else (findNextIdx totalPoints rs).map (· + 1)

/-- The prev and next tiers selected by the progress-bar handler: the loop
result when a strictly greater threshold exists (prev is null when next is
the first tier), and both collapse to the last tier otherwise. -/
def prevNext (totalPoints : Int) (rewards : List Reward) :
    Option Reward × Option Reward :=
  match findNextIdx totalPoints rewards with
  | some i => (if i = 0 then none else rewards[i - 1]?, rewards[i]?)
  | none =>
    match rewards.getLast? with
    | some last => (some last, some last)
    | none => (none, none)

/-- The startPoints local of the progress-bar handler:
prev ? prev.points_required : 0. -/
def startPoints (totalPoints : Int) (rewards : List Reward) : Int :=
  match (prevNext totalPoints rewards).1 with
  | some p => p.points_required
  | none => 0

/-- The endPoints local of the progress-bar handler:
next ? next.points_required : 0. -/
def endPoints (totalPoints : Int) (rewards : List Reward) : Int :=
  match (prevNext totalPoints rewards).2 with
  | some n => n.points_required
  | none => 0

/-- The indicator width set by the progress-bar handler: 0 for an empty
reward list; otherwise the position between the prev and next thresholds
when they are in strict order, 100 when they are degenerate, clamped to the
interval from 0 to 100. -/
def progressPercent (totalPoints : Int) (rewards : List Reward) : ℚ :=
  if rewards.isEmpty then 0
  else
    clampQ
      (if endPoints totalPoints rewards > startPoints totalPoints rewards then
        (((totalPoints : ℚ) - ((startPoints totalPoints rewards : Int) : ℚ)) /
          (((endPoints totalPoints rewards : Int) : ℚ) -
            ((startPoints totalPoints rewards : Int) : ℚ))) * 100
      else 100)

/-- The progress text set by the progress-bar handler: the raw total for an
empty reward list or when no next tier exists, and the capped fraction
min(totalPoints, endPoints) over endPoints otherwise. -/
def progressText (totalPoints : Int) (rewards : List Reward) : String :=
  if rewards.isEmpty then toString totalPoints
  else
    match (prevNext totalPoints rewards).2 with
    | some n =>
      toString (min totalPoints n.points_required) ++ "/" ++
        toString n.points_required
    | none => toString totalPoints

/-- What the progress-bar handler writes to the page. -/
structure ProgressDisplay where
  widthPercent : ℚ
  text : String
deriving DecidableEq, Repr

/-- The progress-bar computation of the DOMContentLoaded handler, after the
defensive re-sort (which is the identity on the ascending lists the claims
quantify over). -/
def progressDisplay (totalPoints : Int) (rewards : List Reward) :
    ProgressDisplay :=
  { widthPercent := progressPercent totalPoints rewards,
    text := progressText totalPoints rewards }

/-! ## Claim-side definitions (written from the spec wording, for
comparison with the code) -/

/-- The associated quest point value the approval claim speaks of: 0 when
the pending row's quest_id is null or the quest is missing, the quest's
point value otherwise. -/
def associatedQuestPoints (s : DbState) (p : PendingPhoto) : Int :=
  match p.quest_id with
  | none => 0
  | some qid =>
    match s.quests.find? (fun q => decide (q.id = qid)) with
    | none => 0
    | some q => q.points

/-- The previous-tier threshold the progress claim speaks of: 0 when the
next tier is the first one, the threshold of the tier immediately before it
otherwise. -/
def prevThreshold (rewards : List Reward) (i : Nat) : Int :=
  if i = 0 then 0
  else
    match rewards[i - 1]? with
    | some r => r.points_required
    | none => 0

/-! ## Helper lemmas -/

theorem findNextIdx_found {T : Int} :
    ∀ {rewards : List Reward} {i : Nat}, findNextIdx T rewards = some i →
      ∃ r, rewards[i]? = some r ∧ T < r.points_required := by
  intro rewards
  induction rewards with
  | nil => intro i h; simp [findNextIdx] at h
  | cons r rs ih =>
    intro i h
    unfold findNextIdx at h
    by_cases hc : T < r.points_required
    · simp only [hc, if_pos] at h
      cases h
      exact ⟨r, by simp, hc⟩
    · simp only [hc, if_neg, if_false] at h
      rcases Option.map_eq_some'.mp h with ⟨j, hj, hij⟩
      rcases ih hj with ⟨r', hr', hTr'⟩
      exact ⟨r', by simpa [← hij] using hr', hTr'⟩

theorem findNextIdx_before {T : Int} :
    ∀ {rewards : List Reward} {i : Nat}, findNextIdx T rewards = some i →
      ∀ k, k < i → ∃ r, rewards[k]? = some r ∧ r.points_required ≤ T := by
  intro rewards
  induction rewards with
  | nil => intro i h; simp [findNextIdx] at h
  | cons r rs ih =>
    intro i h k hk
    unfold findNextIdx at h
    by_cases hc : T < r.points_required
    · simp only [hc, if_pos] at h
      cases h
      omega
    · simp only [hc, if_neg, if_false] at h
      rcases Option.map_eq_some'.mp h with ⟨j, hj, hij⟩
      cases k with
      | zero => exact ⟨r, by simp, le_of_not_lt hc⟩
      | succ k' =>
        rcases ih hj k' (by omega) with ⟨r', hr', hTr'⟩
        exact ⟨r', by simpa using hr', hTr'⟩

theorem findNextIdx_none_of_all_le {T : Int} :
    ∀ {rewards : List Reward}, (∀ r ∈ rewards, r.points_required ≤ T) →
      findNextIdx T rewards = none := by
  intro rewards
  induction rewards with
  | nil => intro _; rfl
  | cons r rs ih =>
    intro hall
    unfold findNextIdx
    have hr : ¬ T < r.points_required := not_lt.mpr (hall r (by simp))
    simp only [hr, if_neg, if_false]
    rw [ih (fun x hx => hall x (by simp [hx]))]
    rfl

theorem clampQ_mono {x y : ℚ} (h : x ≤ y) : clampQ x ≤ clampQ y :=
  max_le_max le_rfl (min_le_min le_rfl h)

/-- The found case of the progress-bar computation: when a tier strictly
above the total exists, the width is the clamped position between the
previous threshold and that tier, and the text is the capped fraction. -/
theorem progressDisplay_found {T : Int} {rewards : List Reward} {i : Nat}
    {rnext : Reward} (hT : 0 ≤ T) (hfind : findNextIdx T rewards = some i)
    (hget : rewards[i]? = some rnext) :
    (progressDisplay T rewards).widthPercent =
      clampQ ((((T : ℚ) - (prevThreshold rewards i : ℚ)) /
        (((rnext.points_required : ℚ)) - (prevThreshold rewards i : ℚ))) * 100) ∧
    (progressDisplay T rewards).text =
      toString (min T rnext.points_required) ++ "/" ++
        toString rnext.points_required := by
  have hne : ¬ rewards.isEmpty := by
    cases rewards with
    | nil => simp [findNextIdx] at hfind
    | cons r rs => simp
  have hpn : prevNext T rewards =
      (if i = 0 then none else rewards[i - 1]?, rewards[i]?) := by
    unfold prevNext
    rw [hfind]
  have hstart : startPoints T rewards = prevThreshold rewards i := by
    unfold startPoints prevThreshold
    rw [hpn]
    by_cases h0 : i = 0
    · simp [h0]
    · simp only [h0, if_neg, if_false]
  have hend : endPoints T rewards = rnext.points_required := by
    unfold endPoints
    rw [hpn]
    simp [hget]
  have hTnext : T < rnext.points_required := by
    rcases findNextIdx_found hfind with ⟨r, hr, hTr⟩
    rw [hget] at hr
    cases hr
    exact hTr
  have hprevle : prevThreshold rewards i ≤ T := by
    unfold prevThreshold
    by_cases h0 : i = 0
    · simpa [h0] using hT
    · simp only [h0, if_neg, if_false]
      rcases findNextIdx_before hfind (i - 1) (by omega) with ⟨r, hr, hrT⟩
      rw [hr]
      exact hrT
  have hlt : startPoints T rewards < endPoints T rewards := by
    rw [hstart, hend]
    exact lt_of_le_of_lt hprevle hTnext
  constructor
  · show progressPercent T rewards = _
    unfold progressPercent
    simp only [Bool.not_eq_true] at hne
    simp only [hne, gt_iff_lt, if_false, Bool.false_eq_true, hstart, hend]
    rw [if_pos (lt_of_le_of_lt hprevle hTnext)]
  · show progressText T rewards = _
    unfold progressText
    simp only [Bool.not_eq_true] at hne
    simp only [hne, hpn, hget, if_false, Bool.false_eq_true]

/-- The collapse case of the progress-bar computation: when the total meets
or exceeds every threshold, prev and next are both the last tier, the width
is the full 100 percent and the text is the saturated fraction. -/
theorem progressDisplay_collapse {T : Int} {rewards : List Reward}
    {rlast : Reward} (hfind : findNextIdx T rewards = none)
    (hlast : rewards.getLast? = some rlast) :
    (progressDisplay T rewards).widthPercent = 100 ∧
    (progressDisplay T rewards).text =
      toString (min T rlast.points_required) ++ "/" ++
        toString rlast.points_required := by
  have hne : ¬ rewards.isEmpty := by
    intro h
    rw [List.isEmpty_iff.mp h] at hlast
    simp at hlast
  have hpn : prevNext T rewards = (some rlast, some rlast) := by
    unfold prevNext
    rw [hfind, hlast]
  have hse : startPoints T rewards = endPoints T rewards := by
    unfold startPoints endPoints
    rw [hpn]
  constructor
  · show progressPercent T rewards = 100
    unfold progressPercent
    simp only [Bool.not_eq_true] at hne
    simp only [hne, hse, gt_iff_lt, lt_irrefl, if_false, Bool.false_eq_true]
    unfold clampQ
    norm_num
  · show progressText T rewards = _
    unfold progressText
    simp only [Bool.not_eq_true] at hne
    simp only [hne, hpn, if_false, Bool.false_eq_true]

/-! ## Claim C5: the displayed progress formula -/

/-- C5: for every nonnegative total T and nonempty ascending reward-tier
list, the displayed percentage equals
clamp(0, 100, (T - prev.threshold) / (next.threshold - prev.threshold) * 100)
where next is the first tier with threshold strictly above T and prev the
tier immediately before it (threshold 0 when next is the first tier); when
T meets or exceeds every threshold, prev and next collapse to the last tier
and the percentage is 100 percent; and the fraction text is
min(T, next.threshold) / next.threshold for the selected next tier. -/
theorem progress_display_matches_spec_formula
    (T : Int) (rewards : List Reward) (hT : 0 ≤ T) (hne : rewards ≠ [])
    (hsorted : List.Pairwise
      (fun a b => a.points_required ≤ b.points_required) rewards) :
    (∀ i rnext, findNextIdx T rewards = some i →
      rewards[i]? = some rnext →
      (progressDisplay T rewards).widthPercent =
        clampQ ((((T : ℚ) - (prevThreshold rewards i : ℚ)) /
          (((rnext.points_required : ℚ)) - (prevThreshold rewards i : ℚ))) * 100) ∧
      (progressDisplay T rewards).text =
        toString (min T rnext.points_required) ++ "/" ++
          toString rnext.points_required) ∧
    (∀ rlast, findNextIdx T rewards = none → rewards.getLast? = some rlast →
      (progressDisplay T rewards).widthPercent = 100 ∧
      (progressDisplay T rewards).text =
        toString (min T rlast.points_required) ++ "/" ++
          toString rlast.points_required) := by
  constructor
  · intro i rnext hfind hget
    exact progressDisplay_found hT hfind hget
  · intro rlast hfind hlast
    exact progressDisplay_collapse hfind hlast

/-- Witness for C5 at concrete inputs: with tiers at 100 and 500 a total of
250 sits in the second segment, and a total of 700 saturates the bar. -/
theorem progress_display_matches_spec_formula_witness :
    (progressDisplay 250 [⟨100, none⟩, ⟨500, none⟩]).widthPercent =
      clampQ ((((250 : Int) : ℚ) -
          (prevThreshold [⟨100, none⟩, ⟨500, none⟩] 1 : ℚ)) /
        ((((500 : Int) : ℚ)) -
          (prevThreshold [⟨100, none⟩, ⟨500, none⟩] 1 : ℚ)) * 100) ∧
    (progressDisplay 700 [⟨100, none⟩, ⟨500, none⟩]).widthPercent = 100 :=
  ⟨((progress_display_matches_spec_formula 250 [⟨100, none⟩, ⟨500, none⟩]
      (by decide) (by decide) (by decide)).1 1 ⟨500, none⟩
      (by decide) (by decide)).1,
   ((progress_display_matches_spec_formula 700 [⟨100, none⟩, ⟨500, none⟩]
      (by decide) (by decide) (by decide)).2 ⟨500, none⟩
      (by decide) (by decide)).1⟩

/-! ## Claim C2: monotonicity of the percentage -/

/-- Counterexample to C2 as stated: with the ascending tier list 100, 500
the percentage at total 99 is 99 percent but at total 100 it is 0 percent,
so the percentage is not non-decreasing in the total. -/
theorem progress_percent_monotonicity_counterexample :
    List.Pairwise (fun a b => a.points_required ≤ b.points_required)
      [(⟨100, none⟩ : Reward), ⟨500, none⟩] ∧
    (99 : Int) ≤ 100 ∧
    (progressDisplay 100 [⟨100, none⟩, ⟨500, none⟩]).widthPercent <
      (progressDisplay 99 [⟨100, none⟩, ⟨500, none⟩]).widthPercent := by
  refine ⟨by decide, by decide, ?_⟩
  norm_num [progressDisplay, progressPercent, startPoints, endPoints,
    prevNext, findNextIdx, clampQ]

/-- C2 amended: the percentage is non-decreasing in the total as long as
the total stays within one inter-tier segment (the same next tier is
selected; crossing a threshold resets the baseline to the new segment), and
it equals 100 percent for every total that meets or exceeds every threshold
of a nonempty tier list. -/
theorem progress_percent_segment_monotone_and_full :
    (∀ (rewards : List Reward) (T T' : Int), T ≤ T' →
      findNextIdx T rewards = findNextIdx T' rewards →
      (progressDisplay T rewards).widthPercent ≤
        (progressDisplay T' rewards).widthPercent) ∧
    (∀ (rewards : List Reward) (T : Int), rewards ≠ [] →
      (∀ r ∈ rewards, r.points_required ≤ T) →
      (progressDisplay T rewards).widthPercent = 100) := by
  constructor
  · intro rewards T T' hTT hEq
    show progressPercent T rewards ≤ progressPercent T' rewards
    by_cases he : rewards.isEmpty
    · unfold progressPercent
      simp [he]
    · have hpn : prevNext T rewards = prevNext T' rewards := by
        unfold prevNext
        rw [hEq]
      have hs : startPoints T rewards = startPoints T' rewards := by
        unfold startPoints
        rw [hpn]
      have hend : endPoints T rewards = endPoints T' rewards := by
        unfold endPoints
        rw [hpn]
      unfold progressPercent
      simp only [Bool.not_eq_true] at he
      simp only [he, if_false, Bool.false_eq_true, hs, hend]
      set a : Int := startPoints T' rewards with ha
      set b : Int := endPoints T' rewards with hb
      by_cases hab : b > a
      · simp only [hab, if_pos, gt_iff_lt]
        apply clampQ_mono
        have hba : (0 : ℚ) < (b : ℚ) - (a : ℚ) := by
          have hq : (a : ℚ) < (b : ℚ) := by exact_mod_cast hab
          linarith
        have hnum : (T : ℚ) - (a : ℚ) ≤ (T' : ℚ) - (a : ℚ) := by
          have hq : (T : ℚ) ≤ (T' : ℚ) := by exact_mod_cast hTT
          linarith
        exact mul_le_mul_of_nonneg_right
          ((div_le_div_iff_of_pos_right hba).mpr hnum) (by norm_num)
      · simp only [hab, if_neg, if_false, le_refl]
  · intro rewards T hne hall
    have hfind : findNextIdx T rewards = none := findNextIdx_none_of_all_le hall
    rcases hlast : rewards.getLast? with _ | rlast
    · exact absurd (List.getLast?_eq_none_iff.mp hlast) hne
    · exact (progressDisplay_collapse hfind hlast).1

/-- Witness for the amended C2 at concrete inputs: totals 110 and 120 share
the segment between tiers 100 and 500 and the percentage does not drop, and
a total of 600 past every threshold shows the full bar. -/
theorem progress_percent_segment_monotone_and_full_witness :
    (progressDisplay 110 [⟨100, none⟩, ⟨500, none⟩]).widthPercent ≤
      (progressDisplay 120 [⟨100, none⟩, ⟨500, none⟩]).widthPercent ∧
    (progressDisplay 600 [⟨100, none⟩, ⟨500, none⟩]).widthPercent = 100 :=
  ⟨progress_percent_segment_monotone_and_full.1 [⟨100, none⟩, ⟨500, none⟩]
      110 120 (by decide) (by decide),
   progress_percent_segment_monotone_and_full.2 [⟨100, none⟩, ⟨500, none⟩]
      600 (by decide) (by decide)⟩

/-! ## Claim C1: the approve transaction -/

/-- Under states whose quest ids are positive, the points the approve
handler computes agree with the associated quest point value the claim
speaks of. -/
theorem approveQuestPoints_eq_associated (s : DbState) (p : PendingPhoto)
    (hq : ∀ q ∈ s.quests, 0 < q.id) :
    approveQuestPoints s p = associatedQuestPoints s p := by
  unfold approveQuestPoints associatedQuestPoints
  rcases p.quest_id with _ | qid
  · rfl
  · by_cases h0 : qid = 0
    · subst h0
      have hfn : s.quests.find? (fun q => decide (q.id = (0 : Int))) = none :=
        List.find?_eq_none.mpr
          (fun q hqm => by simpa using ne_of_gt (hq q hqm))
      simp [hfn]
    · simp only [h0, ne_eq, not_false_eq_true, if_pos]
      rcases hfq : s.quests.find? (fun q => decide (q.id = qid)) with _ | q <;>
        rw [hfq]

/-- Counterexample to C1 as stated: in a state whose pending row refers to
an existing quest worth minus five points, the approval succeeds but the
global progress total changes by zero and not by the associated quest's
point value, because the source only issues the UPDATE for strictly
positive point values. -/
theorem approve_points_counterexample :
    (approve
      { users := [], photos := [],
        pending := [⟨1, "f", "u", some 1, some ("d"), some 10, none⟩],
        quests := [⟨10, "q", -5, "1", none, none, true⟩],
        progressPoints := 0 } 1).1 = .redirectAdmin ∧
    (approve
      { users := [], photos := [],
        pending := [⟨1, "f", "u", some 1, some ("d"), some 10, none⟩],
        quests := [⟨10, "q", -5, "1", none, none, true⟩],
        progressPoints := 0 } 1).2.progressPoints -
      (0 : Int) ≠
      associatedQuestPoints
        { users := [], photos := [],
          pending := [⟨1, "f", "u", some 1, some ("d"), some 10, none⟩],
          quests := [⟨10, "q", -5, "1", none, none, true⟩],
          progressPoints := 0 }
        ⟨1, "f", "u", some 1, some ("d"), some 10, none⟩ := by
  decide

/-- C1 amended: in every state whose quest ids are positive (as the serial
primary key guarantees), Approve either fails with NotFound leaving the
whole state unchanged (exactly when no pending row carries the id), or
succeeds: exactly one photos row is appended carrying over the pending
row's filename, url, user id and capture timestamp, the pending rows with
that id are deleted, the users and quests tables are untouched, and the
global progress total increases by the associated quest's point value when
that value is positive and is unchanged otherwise (null quest reference,
missing quest, or non-positive value, in which case no UPDATE is
issued). -/
theorem approve_characterization (s : DbState) (id : Int)
    (hq : ∀ q ∈ s.quests, 0 < q.id) :
    ((∀ p ∈ s.pending, p.id ≠ id) → approve s id = (.notFound, s)) ∧
    (∀ p, s.pending.find? (fun r => decide (r.id = id)) = some p →
      (approve s id).1 = .redirectAdmin ∧
      (approve s id).2.photos =
        s.photos ++ [⟨p.filename, p.url, p.user_id, p.taken_at⟩] ∧
      (approve s id).2.progressPoints =
        s.progressPoints + max (associatedQuestPoints s p) 0 ∧
      (∀ r ∈ (approve s id).2.pending, r.id ≠ id) ∧
      (∀ r ∈ s.pending, r.id ≠ id → r ∈ (approve s id).2.pending) ∧
      (∀ r ∈ (approve s id).2.pending, r ∈ s.pending) ∧
      (approve s id).2.users = s.users ∧
      (approve s id).2.quests = s.quests) := by
  rcases hf : s.pending.find? (fun r => decide (r.id = id)) with _ | p
  · constructor
    · intro _
      unfold approve
      rw [hf]
    · intro p hp
      cases hf ▸ hp
  · have hpid : p.id = id := by
      have := List.find?_some hf
      simpa using this
    have happrove : approve s id =
        (.redirectAdmin,
          { s with
            photos := s.photos ++ [⟨p.filename, p.url, p.user_id, p.taken_at⟩],
            progressPoints :=
              if approveQuestPoints s p > 0 then
                s.progressPoints + approveQuestPoints s p
              else s.progressPoints,
            pending := s.pending.filter (fun r => decide (r.id ≠ id)) }) := by
      unfold approve
      rw [hf]
    constructor
    · intro hall
      exact absurd hpid (hall p (List.mem_of_find?_eq_some hf))
    · intro p' hp'
      have hpp : p' = p := by
        rw [hf] at hp'
        cases hp'
        rfl
      subst hpp
      rw [happrove]
      refine ⟨rfl, rfl, ?_, ?_, ?_, ?_, rfl, rfl⟩
      · show (if approveQuestPoints s p' > 0 then
            s.progressPoints + approveQuestPoints s p'
          else s.progressPoints) =
          s.progressPoints + max (associatedQuestPoints s p') 0
        rw [approveQuestPoints_eq_associated s p' hq]
        by_cases hpos : associatedQuestPoints s p' > 0
        · rw [if_pos hpos, max_eq_left (le_of_lt hpos)]
        · rw [if_neg hpos, max_eq_right (le_of_not_lt hpos)]
          omega
      · intro r hrmem
        have := (List.mem_filter.mp hrmem).2
        simpa using this
      · intro r hrmem hrid
        exact List.mem_filter.mpr ⟨hrmem, by simpa using hrid⟩
      · intro r hrmem
        exact (List.mem_filter.mp hrmem).1

/-- Witness for the amended C1 at a concrete state: approving a missing id
answers NotFound, and approving the pending row tied to a quest worth 5
points credits exactly 5. -/
theorem approve_characterization_witness :
    approve
      { users := [], photos := [],
        pending := [⟨1, "f", "u", some 1, some ("d"), some 10, none⟩],
        quests := [⟨10, "q", 5, "1", none, none, true⟩],
        progressPoints := 2 } 3 =
      (.notFound,
        { users := [], photos := [],
          pending := [⟨1, "f", "u", some 1, some ("d"), some 10, none⟩],
          quests := [⟨10, "q", 5, "1", none, none, true⟩],
          progressPoints := 2 }) ∧
    (approve
      { users := [], photos := [],
        pending := [⟨1, "f", "u", some 1, some ("d"), some 10, none⟩],
        quests := [⟨10, "q", 5, "1", none, none, true⟩],
        progressPoints := 2 } 1).2.progressPoints =
      2 + max (associatedQuestPoints
        { users := [], photos := [],
          pending := [⟨1, "f", "u", some 1, some ("d"), some 10, none⟩],
          quests := [⟨10, "q", 5, "1", none, none, true⟩],
          progressPoints := 2 }
        ⟨1, "f", "u", some 1, some ("d"), some 10, none⟩) 0 :=
  ⟨(approve_characterization
      { users := [], photos := [],
        pending := [⟨1, "f", "u", some 1, some ("d"), some 10, none⟩],
        quests := [⟨10, "q", 5, "1", none, none, true⟩],
        progressPoints := 2 } 3 (by decide)).1 (by decide),
   ((approve_characterization
      { users := [], photos := [],
        pending := [⟨1, "f", "u", some 1, some ("d"), some 10, none⟩],
        quests := [⟨10, "q", 5, "1", none, none, true⟩],
        progressPoints := 2 } 1 (by decide)).2
      ⟨1, "f", "u", some 1, some ("d"), some 10, none⟩ (by decide)).2.2.1⟩

/-! ## Claim C3: the quest reference of an upload -/

/-- Counterexample to C3 as stated: a permitted identity uploads with an
empty-string quest reference.  The empty string is falsy in JavaScript, so
the parseInt branch is skipped and the raw empty string reaches the INTEGER
column, where the cast fails: the upload ends in a server error and no
pending row is created, instead of a row with a null quest_id. -/
theorem upload_empty_quest_counterexample :
    getUserByDevice
        [(⟨1, "alice", "h1", ["tok"]⟩ : User)] ("tok") =
      some ⟨1, "alice", "h1", ["tok"]⟩ ∧
    (upload
      { users := [⟨1, "alice", "h1", ["tok"]⟩], photos := [],
        pending := [], quests := [], progressPoints := 0 }
      true ("tok") (some ("f", "u")) (some ("")) none 1).1 = .serverError ∧
    (upload
      { users := [⟨1, "alice", "h1", ["tok"]⟩], photos := [],
        pending := [], quests := [], progressPoints := 0 }
      true ("tok") (some ("f", "u")) (some ("")) none 1).2 =
      { users := [⟨1, "alice", "h1", ["tok"]⟩], photos := [],
        pending := [], quests := [], progressPoints := 0 } := by
  refine ⟨by decide, by decide, by decide⟩

/-- C3 amended: for an upload by a resolved identity with a stored blob,
an absent quest reference yields a pending row with a null quest_id; a
nonempty quest reference is parsed with parseInt and the row stores the
parsed integer, null when the parse gives NaN (non-numeric reference), so
such uploads never fail on account of the quest reference; but an
empty-string quest reference skips the parse, fails the INTEGER cast, and
aborts the upload with a server error and no row. -/
theorem upload_quest_reference_characterization
    (s : DbState) (token filename url : String) (takenAt : Option Int)
    (newId : Int) (u : User) (bq : Option String)
    (hu : getUserByDevice s.users token = some u) :
    (bq = none →
      upload s true token (some (filename, url)) bq takenAt newId =
        (.redirectToiletApp,
          { s with pending := s.pending ++
              [⟨newId, filename, url, some u.id, some token, none,
                takenAt⟩] })) ∧
    (∀ str, bq = some str → str ≠ "" →
      upload s true token (some (filename, url)) bq takenAt newId =
        (.redirectToiletApp,
          { s with pending := s.pending ++
              [⟨newId, filename, url, some u.id, some token,
                jsParseInt str, takenAt⟩] })) ∧
    (bq = some ("") →
      upload s true token (some (filename, url)) bq takenAt newId =
        (.serverError, s)) := by
  refine ⟨?_, ?_, ?_⟩
  · intro hbq
    subst hbq
    unfold upload
    rw [hu]
    simp [uploadQuestIdVal, pgIntParam]
  · intro str hbq hstr
    subst hbq
    unfold upload
    rw [hu]
    rcases hj : jsParseInt str with _ | n <;>
      simp [uploadQuestIdVal, hstr, hj, pgIntParam]
  · intro hbq
    subst hbq
    unfold upload
    rw [hu]
    simp [uploadQuestIdVal, pgIntParam, pgTextToInt, stripLeadingWs]

/-- Witness for the amended C3 at concrete uploads: an absent reference
stores null, the numeric reference 7 stores 7, and the non-numeric
reference abc stores null without failing. -/
theorem upload_quest_reference_characterization_witness :
    upload
      { users := [⟨1, "alice", "h1", ["tok"]⟩], photos := [],
        pending := [], quests := [], progressPoints := 0 }
      true ("tok") (some ("f", "u")) none none 1 =
      (.redirectToiletApp,
        { users := [⟨1, "alice", "h1", ["tok"]⟩], photos := [],
          pending := [⟨1, "f", "u", some 1, some ("tok"), none, none⟩],
          quests := [], progressPoints := 0 }) ∧
    upload
      { users := [⟨1, "alice", "h1", ["tok"]⟩], photos := [],
        pending := [], quests := [], progressPoints := 0 }
      true ("tok") (some ("f", "u")) (some ("abc")) none 1 =
      (.redirectToiletApp,
        { users := [⟨1, "alice", "h1", ["tok"]⟩], photos := [],
          pending := [⟨1, "f", "u", some 1, some ("tok"),
            jsParseInt ("abc"), none⟩],
          quests := [], progressPoints := 0 }) :=
  ⟨((upload_quest_reference_characterization
      { users := [⟨1, "alice", "h1", ["tok"]⟩], photos := [],
        pending := [], quests := [], progressPoints := 0 }
      ("tok") ("f") ("u") none 1 ⟨1, "alice", "h1", ["tok"]⟩ none
      (by decide)).1 rfl),
   ((upload_quest_reference_characterization
      { users := [⟨1, "alice", "h1", ["tok"]⟩], photos := [],
        pending := [], quests := [], progressPoints := 0 }
      ("tok") ("f") ("u") none 1 ⟨1, "alice", "h1", ["tok"]⟩ (some ("abc"))
      (by decide)).2.1 ("abc") rfl (by decide))⟩

/-! ## Claim ten: the identity resolver -/

/-- C10: getUserByDevice returns at most one account (an optional row);
whenever it returns an account, that account is a users row whose devices
array contains the token; and it returns null exactly when no account's
devices array contains the token. -/
theorem getUserByDevice_characterization
    (users : List User) (token : String) :
    (∀ u, getUserByDevice users token = some u →
      u ∈ users ∧ token ∈ u.devices) ∧
    (getUserByDevice users token = none ↔
      ∀ u ∈ users, token ∉ u.devices) := by
  constructor
  · intro u h
    refine ⟨List.mem_of_find?_eq_some h, ?_⟩
    have hp := List.find?_some h
    simpa using hp
  · unfold getUserByDevice
    rw [List.find?_eq_none]
    simp

/-- Witness for C10 at a concrete users table. -/
theorem getUserByDevice_characterization_witness :
    ((⟨1, "alice", "h1", ["tokA"]⟩ : User) ∈
        [(⟨1, "alice", "h1", ["tokA"]⟩ : User)] ∧
      "tokA" ∈ (⟨1, "alice", "h1", ["tokA"]⟩ : User).devices) ∧
    getUserByDevice [(⟨1, "alice", "h1", ["tokA"]⟩ : User)] ("tokB") = none :=
  ⟨(getUserByDevice_characterization
      [(⟨1, "alice", "h1", ["tokA"]⟩ : User)] ("tokA")).1
      ⟨1, "alice", "h1", ["tokA"]⟩ (by decide),
   (getUserByDevice_characterization
      [(⟨1, "alice", "h1", ["tokA"]⟩ : User)] ("tokB")).2.mpr (by decide)⟩

/-! ## Claim eight: the admin gate -/

/-- C8: the admin gate redirects to the landing page when the device token
resolves to no account, answers Forbidden without redirecting when it
resolves to an account whose username is not the hardcoded admin username,
and passes the request through exactly for that distinguished account. -/
theorem requireAdmin_characterization (users : List User) (token : String) :
    (getUserByDevice users token = none →
      requireAdmin users token = .redirectHome) ∧
    (∀ u, getUserByDevice users token = some u → u.username ≠ "Nicolas" →
      requireAdmin users token = .forbidden) ∧
    (∀ u, getUserByDevice users token = some u → u.username = "Nicolas" →
      requireAdmin users token = .pass u) ∧
    (∀ u, requireAdmin users token = .pass u →
      getUserByDevice users token = some u ∧ u.username = "Nicolas") := by
  refine ⟨?_, ?_, ?_, ?_⟩
  · intro h
    unfold requireAdmin
    rw [h]
  · intro u h hu
    unfold requireAdmin
    rw [h]
    simp [hu]
  · intro u h hu
    unfold requireAdmin
    rw [h]
    simp [hu]
  · intro u h
    unfold requireAdmin at h
    rcases hg : getUserByDevice users token with _ | v
    · rw [hg] at h
      cases h
    · rw [hg] at h
      by_cases hv : v.username = "Nicolas"
      · simp only [hv, ne_eq, not_true_eq_false, if_neg, if_false] at h
        cases h
        exact ⟨rfl, hv⟩
      · simp [hv] at h

/-- Witness for C8 at a concrete users table: an unknown token redirects, a
non-admin account gets Forbidden, the admin account passes. -/
theorem requireAdmin_characterization_witness :
    requireAdmin [(⟨1, "Nicolas", "h1", ["tokN"]⟩ : User),
      ⟨2, "bob", "h2", ["tokB"]⟩] ("tokX") = .redirectHome ∧
    requireAdmin [(⟨1, "Nicolas", "h1", ["tokN"]⟩ : User),
      ⟨2, "bob", "h2", ["tokB"]⟩] ("tokB") = .forbidden ∧
    requireAdmin [(⟨1, "Nicolas", "h1", ["tokN"]⟩ : User),
      ⟨2, "bob", "h2", ["tokB"]⟩] ("tokN") =
      .pass ⟨1, "Nicolas", "h1", ["tokN"]⟩ :=
  ⟨(requireAdmin_characterization [⟨1, "Nicolas", "h1", ["tokN"]⟩,
      ⟨2, "bob", "h2", ["tokB"]⟩] ("tokX")).1 (by decide),
   (requireAdmin_characterization [⟨1, "Nicolas", "h1", ["tokN"]⟩,
      ⟨2, "bob", "h2", ["tokB"]⟩] ("tokB")).2.1
      ⟨2, "bob", "h2", ["tokB"]⟩ (by decide) (by decide),
   (requireAdmin_characterization [⟨1, "Nicolas", "h1", ["tokN"]⟩,
      ⟨2, "bob", "h2", ["tokB"]⟩] ("tokN")).2.2.1
      ⟨1, "Nicolas", "h1", ["tokN"]⟩ (by decide) (by decide)⟩

/-! ## Claim four: rejecting a pending photo -/

/-- C4: when no pending row carries the requested id, Reject answers
NotFound and changes nothing; when such a row exists, Reject deletes
exactly the rows with that id from the pending queue and touches nothing
else (the blob purge is commented out in the source, hence optional). -/
theorem reject_characterization (s : DbState) (id : Int) :
    ((∀ p ∈ s.pending, p.id ≠ id) → reject s id = (.notFound, s)) ∧
    ((∃ p ∈ s.pending, p.id = id) →
      (reject s id).1 = .redirectAdmin ∧
      (∀ r ∈ (reject s id).2.pending, r.id ≠ id) ∧
      (∀ r ∈ s.pending, r.id ≠ id → r ∈ (reject s id).2.pending) ∧
      (∀ r ∈ (reject s id).2.pending, r ∈ s.pending) ∧
      (reject s id).2.photos = s.photos ∧
      (reject s id).2.users = s.users ∧
      (reject s id).2.quests = s.quests ∧
      (reject s id).2.progressPoints = s.progressPoints) := by
  rcases hf : s.pending.find? (fun p => decide (p.id = id)) with _ | p
  · constructor
    · intro _
      unfold reject
      rw [hf]
    · rintro ⟨p, hp, hpid⟩
      have := List.find?_eq_none.mp hf p hp
      simp [hpid] at this
  · have hpid : p.id = id := by
      have := List.find?_some hf
      simpa using this
    constructor
    · intro hall
      exact absurd hpid (hall p (List.mem_of_find?_eq_some hf))
    · intro _
      have hr : reject s id =
          (.redirectAdmin,
            { s with pending :=
                s.pending.filter (fun r => decide (r.id ≠ id)) }) := by
        unfold reject
        rw [hf]
      rw [hr]
      refine ⟨rfl, ?_, ?_, ?_, rfl, rfl, rfl, rfl⟩
      · intro r hrmem
        have := (List.mem_filter.mp hrmem).2
        simpa using this
      · intro r hrmem hrid
        exact List.mem_filter.mpr ⟨hrmem, by simpa using hrid⟩
      · intro r hrmem
        exact (List.mem_filter.mp hrmem).1

/-- Witness for C4 at a concrete state: rejecting a missing id answers
NotFound and rejecting an existing id succeeds. -/
theorem reject_characterization_witness :
    reject
      { users := [], photos := [],
        pending := [⟨1, "f", "u", some 1, some ("d"), none, none⟩],
        quests := [], progressPoints := 0 } 2 =
      (.notFound,
        { users := [], photos := [],
          pending := [⟨1, "f", "u", some 1, some ("d"), none, none⟩],
          quests := [], progressPoints := 0 }) ∧
    (reject
      { users := [], photos := [],
        pending := [⟨1, "f", "u", some 1, some ("d"), none, none⟩],
        quests := [], progressPoints := 0 } 1).1 = .redirectAdmin :=
  ⟨(reject_characterization
      { users := [], photos := [],
        pending := [⟨1, "f", "u", some 1, some ("d"), none, none⟩],
        quests := [], progressPoints := 0 } 2).1 (by decide),
   ((reject_characterization
      { users := [], photos := [],
        pending := [⟨1, "f", "u", some 1, some ("d"), none, none⟩],
        quests := [], progressPoints := 0 } 1).2
      ⟨⟨1, "f", "u", some 1, some ("d"), none, none⟩, by decide, rfl⟩).1⟩

/-- COALESCE(x BETWEEN a AND b, false) is true exactly when both bounds are
present and x lies between them; the three-valued NULL collapses to false. -/
theorem coalesceBetween_true_iff (today : Int) (sa ea : Option Int) :
    (coalesceFalse (sqlBetween (some today) sa ea) = true) ↔
      (∃ st en, sa = some st ∧ ea = some en ∧ st ≤ today ∧ today ≤ en) := by
  rcases sa with _ | st
  · rcases ea with _ | en
    · simp [sqlBetween, sqlLe, sqlAnd, coalesceFalse]
    · by_cases h2 : today ≤ en <;>
        simp [sqlBetween, sqlLe, sqlAnd, coalesceFalse, h2]
  · rcases ea with _ | en
    · by_cases h1 : st ≤ today <;>
        simp [sqlBetween, sqlLe, sqlAnd, coalesceFalse, h1]
    · by_cases h1 : st ≤ today <;> by_cases h2 : today ≤ en <;>
        simp [sqlBetween, sqlLe, sqlAnd, coalesceFalse, h1, h2]

/-! ## Claim six: the weekly quest activity refresh -/

/-- C6 settled against the code at a concrete failing input: with the
quests table holding one weekly quest whose window contains today and
whose stored flag is stale, the refresh statement raises the
operator-resolution error and leaves every row (the stale flag included)
unchanged, although the row-wise update it was written to perform would
have set the flag to true; and the statement errors this way on every
call, whatever the table holds. -/
theorem weekly_refresh_errors_at_failing_input :
    refreshWeeklyQuestsActive 10
        [⟨1, "w", 5, "3", some 9, some 11, false⟩] =
      .error ("operator does not exist: text = integer") ∧
    (refreshQuestActiveIntended 10
      ⟨1, "w", 5, "3", some 9, some 11, false⟩).active = true ∧
    (∀ (qs : List Quest) (today : Int),
      refreshWeeklyQuestsActive today qs =
        .error ("operator does not exist: text = integer")) :=
  ⟨rfl, by decide, fun qs today => rfl⟩

/-! ## Claim seven: upload never touches the gallery or the progress -/

/-- C7: whatever the inputs and however the upload ends, the photos table,
the global progress total, the users table and the quests table are
unchanged; a successful upload appends exactly one pending row. -/
theorem upload_frame (s : DbState) (hasFile : Bool) (token : String)
    (blob : Option (String × String)) (body_quest_id : Option String)
    (takenAt : Option Int) (newId : Int) :
    (upload s hasFile token blob body_quest_id takenAt newId).2.photos =
      s.photos ∧
    (upload s hasFile token blob body_quest_id takenAt newId).2.progressPoints =
      s.progressPoints ∧
    (upload s hasFile token blob body_quest_id takenAt newId).2.users =
      s.users ∧
    (upload s hasFile token blob body_quest_id takenAt newId).2.quests =
      s.quests ∧
    ((upload s hasFile token blob body_quest_id takenAt newId).1 =
        .redirectToiletApp →
      ∃ row : PendingPhoto,
        (upload s hasFile token blob body_quest_id takenAt newId).2.pending =
          s.pending ++ [row]) := by
  unfold upload
  by_cases hf : hasFile
  · simp only [hf, not_true_eq_false, if_neg, if_false, Bool.false_eq_true]
    rcases getUserByDevice s.users token with _ | user
    · simp
    · rcases blob with _ | ⟨filename, url⟩
      · simp
      · rcases pgIntParam (uploadQuestIdVal body_quest_id) with _ | questId
        · simp
        · exact ⟨rfl, rfl, rfl, rfl, fun _ =>
            ⟨⟨newId, filename, url, some user.id, some token, questId, takenAt⟩,
              rfl⟩⟩
  · simp only [hf]
    simp

/-- Witness for C7 at a concrete successful upload. -/
theorem upload_frame_witness :
    ∃ row : PendingPhoto,
      (upload
        { users := [⟨1, "alice", "h1", ["tok"]⟩], photos := [],
          pending := [], quests := [], progressPoints := 0 }
        true ("tok") (some ("f", "u")) (some ("7")) none 5).2.pending =
      ([] : List PendingPhoto) ++ [row] :=
  (upload_frame
    { users := [⟨1, "alice", "h1", ["tok"]⟩], photos := [],
      pending := [], quests := [], progressPoints := 0 }
    true ("tok") (some ("f", "u")) (some ("7")) none 5).2.2.2.2 (by decide)

/-! ## Claim nine: additive, idempotent device binding at login -/

theorem find?_congr_pred {α : Type} {p q : α → Bool} (h : ∀ a, p a = q a) :
    ∀ l : List α, l.find? p = l.find? q := by
  intro l
  induction l with
  | nil => rfl
  | cons a l ih => simp [List.find?, h a, ih]

theorem bindOne_id (token : String) (uid : Int) (u : User) :
    (bindOne token uid u).id = u.id := by
  unfold bindOne
  split <;> rfl

theorem bindOne_username (token : String) (uid : Int) (u : User) :
    (bindOne token uid u).username = u.username := by
  unfold bindOne
  split <;> rfl

theorem bindOne_password_hash (token : String) (uid : Int) (u : User) :
    (bindOne token uid u).password_hash = u.password_hash := by
  unfold bindOne
  split <;> rfl

theorem bindOne_idem (token : String) (uid : Int) (u : User) :
    bindOne token uid (bindOne token uid u) = bindOne token uid u := by
  unfold bindOne
  by_cases hc : u.id = uid ∧ token ∉ u.devices
  · rw [if_pos hc, if_neg]
    intro hcc
    exact hcc.2 (by simp)
  · rw [if_neg hc, if_neg hc]

theorem bindDevice_idem (token : String) (uid : Int) (users : List User) :
    bindDevice token uid (bindDevice token uid users) =
      bindDevice token uid users := by
  unfold bindDevice
  rw [List.map_map]
  exact List.map_congr_left (fun u _ => bindOne_idem token uid u)

/-- C9: device binding at login is additive and idempotent.  Row by row,
the users table after a login keeps every identity column, either leaves
the devices array alone or appends the token exactly when it was absent,
and never loses a previously bound token; and running the same login twice
leaves the users table exactly as after the first run. -/
theorem login_binding_additive_idempotent
    (verify : String → String → Bool) (users : List User)
    (username password token : String) :
    List.Forall₂ (fun u u' =>
        u'.id = u.id ∧ u'.username = u.username ∧
        u'.password_hash = u.password_hash ∧
        (u'.devices = u.devices ∨
          (token ∉ u.devices ∧ u'.devices = u.devices ++ [token])) ∧
        (∀ t, t ∈ u.devices → t ∈ u'.devices))
      users (login verify users username password token).2 ∧
    (login verify (login verify users username password token).2
        username password token).2 =
      (login verify users username password token).2 := by
  have hRrefl : ∀ us : List User, List.Forall₂ (fun u u' =>
      u'.id = u.id ∧ u'.username = u.username ∧
      u'.password_hash = u.password_hash ∧
      (u'.devices = u.devices ∨
        (token ∉ u.devices ∧ u'.devices = u.devices ++ [token])) ∧
      (∀ t, t ∈ u.devices → t ∈ u'.devices)) us us :=
    fun us => List.forall₂_same.mpr
      (fun x _ => ⟨rfl, rfl, rfl, Or.inl rfl, fun t ht => ht⟩)
  rcases hf : users.find? (fun x => decide (x.username = username)) with _ | u
  · have hlog : login verify users username password token =
        (.userNotFound, users) := by
      unfold login
      rw [hf]
    rw [hlog]
    exact ⟨hRrefl users, by rw [hlog]⟩
  · by_cases hv : verify password u.password_hash
    · have hlog : login verify users username password token =
          (.redirectHome, bindDevice token u.id users) := by
        unfold login
        rw [hf]
        simp [hv]
      have hfind2 : (bindDevice token u.id users).find?
          (fun x => decide (x.username = username)) =
            some (bindOne token u.id u) := by
        unfold bindDevice
        rw [List.find?_map]
        have hcong : users.find?
            ((fun x => decide (x.username = username)) ∘ bindOne token u.id) =
              users.find? (fun x => decide (x.username = username)) :=
          find?_congr_pred
            (fun a => by simp [Function.comp, bindOne_username]) users
        rw [hcong, hf]
        rfl
      constructor
      · rw [hlog]
        unfold bindDevice
        rw [List.forall₂_map_right_iff]
        apply List.forall₂_same.mpr
        intro x _
        unfold bindOne
        by_cases hc : x.id = u.id ∧ token ∉ x.devices
        · rw [if_pos hc]
          exact ⟨rfl, rfl, rfl, Or.inr ⟨hc.2, rfl⟩,
            fun t ht => List.mem_append_left _ ht⟩
        · rw [if_neg hc]
          exact ⟨rfl, rfl, rfl, Or.inl rfl, fun t ht => ht⟩
      · rw [hlog]
        show (login verify (bindDevice token u.id users)
          username password token).2 = bindDevice token u.id users
        unfold login
        rw [hfind2]
        simp [bindOne_password_hash, bindOne_id, hv, bindDevice_idem]
    · have hlog : login verify users username password token =
          (.wrongPassword, users) := by
        unfold login
        rw [hf]
        simp [hv]
      rw [hlog]
      exact ⟨hRrefl users, by rw [hlog]⟩

/-- Witness for C9 at a concrete login: binding appends the new token once
and a second identical login changes nothing. -/
theorem login_binding_additive_idempotent_witness :
    (login (fun p h => p == h) [⟨1, "alice", "pw", ["old"]⟩]
      ("alice") ("pw") ("tok")).2 = [⟨1, "alice", "pw", ["old", "tok"]⟩] ∧
    (login (fun p h => p == h)
      (login (fun p h => p == h) [⟨1, "alice", "pw", ["old"]⟩]
        ("alice") ("pw") ("tok")).2 ("alice") ("pw") ("tok")).2 =
      (login (fun p h => p == h) [⟨1, "alice", "pw", ["old"]⟩]
        ("alice") ("pw") ("tok")).2 :=
  ⟨by decide,
   (login_binding_additive_idempotent (fun p h => p == h)
      [⟨1, "alice", "pw", ["old"]⟩] ("alice") ("pw") ("tok")).2⟩
